import Mathlib

/-!
# Verification of the api-generator register/interrupt extraction and rendering

A shallow embedding of the two generator scripts (`generate_header.py`,
`generate_drivers.py`): the JSON document tree and its traversal, the
key-or-value query, register and interrupt extraction with their run-scoped
deduplication caches, width validation, and the offset-macro renderer.
Python strings are Lean `String`s; Python string methods are re-implemented
by structural recursion over the character list so that all definitions
evaluate inside the kernel.  Python `int`s are `Int`; raised exceptions are
`Except Err` results.
-/

/-! ## Python string primitives -/

/-- Python `str.lower()` (ASCII case folding, which is all the generator uses). -/
def pyLower (s : String) : String := ⟨s.data.map Char.toLower⟩

/-- Python `str.upper()` (ASCII case folding). -/
def pyUpper (s : String) : String := ⟨s.data.map Char.toUpper⟩

/-- Python `str.strip()`: drop whitespace from both ends. -/
def pyStrip (s : String) : String :=
  ⟨((s.data.dropWhile Char.isWhitespace).reverse.dropWhile Char.isWhitespace).reverse⟩

/-- Python `str.replace(" ", "")`: remove every space character. -/
def pyRemoveSpaces (s : String) : String := ⟨s.data.filter (· ≠ ' ')⟩

/-- Python `s.startswith(p)`. -/
def pyStartsWith (s p : String) : Bool := p.data.isPrefixOf s.data

/-- Python `s.endswith(p)`. -/
def pyEndsWith (s p : String) : Bool := p.data.isSuffixOf s.data

/-- Python `c in s` for a single-character needle. -/
def pyContainsChar (s : String) (c : Char) : Bool := s.data.contains c

/-- Python `s.split('_')` on the character list: always returns at least one
(possibly empty) segment. -/
def splitUChars : List Char → List (List Char)
  | [] => [[]]
  | c :: cs =>
      match splitUChars cs with
      | [] => [[]]
      | seg :: rest => if c = '_' then [] :: seg :: rest else (c :: seg) :: rest

/-- Python `s.split('_')`. -/
def pySplitU (s : String) : List String := (splitUChars s.data).map (⟨·⟩)

/-- Python `sep.join(xs)`. -/
def pyJoin (sep : String) : List String → String
  | [] => ""
  | x :: rest => rest.foldl (fun acc y => acc ++ sep ++ y) x

/-- Python `min` over a list of ints: raises `ValueError` on an empty sequence. -/
inductive Err : Type where
  | conflictingDefinition : Err
  | unsupportedAddressConfiguration : Err
  | invalidRegisterWidth : Int → String → Err
  | keyError : String → Err
  | typeError : Err
  | valueError : Err
  | indexError : Err
deriving DecidableEq

/-- Python `min(i for i in xs)` (`main`, generate_header.py line 378):
`ValueError` on an empty sequence, else the least element. -/
def pyMin : List Int → Except Err Int
  | [] => .error .valueError
  | x :: xs => .ok (xs.foldl min x)

/-! ## The parsed JSON document tree

`walk` and the query functions recurse through both maps and sequences, so
the tree is a mutual inductive (`JVal` / `JList` / `JObj`) and the traversals
are mutual structural recursions; consumers convert the child collections to
ordinary lists. -/

mutual
inductive JVal : Type where
  | str : String → JVal
  | int : Int → JVal
  | bool : Bool → JVal
  | null : JVal
  | arr : JList → JVal
  | obj : JObj → JVal
deriving DecidableEq
inductive JList : Type where
  | nil : JList
  | cons : JVal → JList → JList
deriving DecidableEq
inductive JObj : Type where
  | nil : JObj
  | cons : String → JVal → JObj → JObj
deriving DecidableEq
end

/-- The elements of a JSON sequence, as a Lean list. -/
def JList.toList : JList → List JVal
  | .nil => []
  | .cons x xs => x :: xs.toList

/-- The key/value pairs of a JSON map, in document order. -/
def JObj.entries : JObj → List (String × JVal)
  | .nil => []
  | .cons k v rest => (k, v) :: rest.entries

/-- The values of a JSON map, in document order (Python `dict.values()`). -/
def JObj.valuesList : JObj → List JVal
  | .nil => []
  | .cons _ v rest => v :: rest.valuesList

/-- Python `d[k]` as an optional lookup (first binding wins, as in a dict
whose keys are unique). -/
def JObj.get : JObj → String → Option JVal
  | .nil, _ => none
  | .cons k v rest, key => if k = key then some v else rest.get key

/-! ### `walk` (generate_header.py lines 21-36)

Pre-order traversal yielding every container node (map or sequence),
the container itself before its children.  Scalars are not yielded. -/

mutual
def walk : JVal → List JVal
  | .obj kvs => JVal.obj kvs :: walkObj kvs
  | .arr xs => JVal.arr xs :: walkList xs
  | _ => []
def walkList : JList → List JVal
  | .nil => []
  | .cons x xs => walk x ++ walkList xs
def walkObj : JObj → List JVal
  | .nil => []
  | .cons _ v rest => walk v ++ walkObj rest
end

/-! ## generate_drivers.py: the key-or-value query -/

namespace Drivers

/-- `re.match(pattern, s)` for a metacharacter-free (literal) pattern:
`re.match` anchors at the start of the string only, so a literal pattern
matches exactly when it is a prefix of the candidate; the rest of the
candidate is unconstrained. -/
def reMatch (pat s : String) : Bool := pat.data.isPrefixOf s.data

/-- The key/value test of `search_json_component` (lines 59-60): a map entry
matches when the regex matches the key, or the value is a string the regex
matches. -/
def entryMatch (pat : String) (k : String) (v : JVal) : Bool :=
  reMatch pat k || (match v with | .str s => reMatch pat s | _ => false)

/-- Whether any entry of the map matches (the loop of lines 58-63 reaches
`yield`). -/
def objAnyMatch (pat : String) : JObj → Bool
  | .nil => false
  | .cons k v rest => entryMatch pat k v || objAnyMatch pat rest

mutual
/-- `search_json_component` (generate_drivers.py lines 42-67): at a sequence,
search every element; at a map, if any key or string value matches the
pattern yield the whole map once and do not descend, otherwise search the
map's values; scalars yield nothing. -/
def search_json_component (pat : String) : JVal → List JVal
  | .arr xs => searchL pat xs
  | .obj kvs =>
      if objAnyMatch pat kvs then [JVal.obj kvs] else searchVals pat kvs
  | _ => []
def searchL (pat : String) : JList → List JVal
  | .nil => []
  | .cons x xs => search_json_component pat x ++ searchL pat xs
def searchVals (pat : String) : JObj → List JVal
  | .nil => []
  | .cons _ v rest => search_json_component pat v ++ searchVals pat rest
end

/-- A register of the drivers script (generate_drivers.py lines 24-31):
`offset` is in bytes, `width` in bits. -/
structure Register : Type where
  name : String
  offset : Int
  width : Int
deriving DecidableEq

/-- A raw register descriptor from the DUH document (`main`, lines 580-583):
`addressOffset` in bits, `size` in bits. -/
structure DuhReg : Type where
  name : String
  addressOffset : Int
  size : Int
deriving DecidableEq

/-- The register-list construction loop of `main` (generate_drivers.py lines
579-590): the byte offset is `addressOffset // 8` (Python floor division);
a width outside {8, 16, 32, 64} raises, with the message naming the width and
the offending register (modelled as the `invalidRegisterWidth` payload). -/
def build_reglist : List DuhReg → Except Err (List Register)
  | [] => .ok []
  | r :: rs =>
      let offset : Int := Int.fdiv r.addressOffset 8
      if r.size = 8 ∨ r.size = 16 ∨ r.size = 32 ∨ r.size = 64 then
        (build_reglist rs).map (fun tail => ⟨r.name, offset, r.size⟩ :: tail)
      else
        .error (.invalidRegisterWidth r.size r.name)

end Drivers

/-! ## generate_header.py: data classes and extraction -/

namespace Header

/-- Register of the header script (generate_header.py lines 43-52):
`offset` in bits, `width` in bits, plus a (possibly empty) `group`. -/
structure Register : Type where
  name : String
  offset : Int
  width : Int
  group : String
deriving DecidableEq

/-- The run-scoped `Register.all_registers` cache: a key/value sequence where
a later binding shadows an earlier one with the same key (dict assignment),
and lookup returns the most recent binding. -/
abbrev RegState : Type := List (String × Register)

/-- Dict lookup in the cache (most recent binding first). -/
def regGet (st : RegState) (key : String) : Option Register :=
  match st with
  | [] => none
  | (k, r) :: rest => if k = key then some r else regGet rest key

/-- Dict assignment `all_registers[key] = r` (shadowing insert). -/
def regPut (st : RegState) (key : String) (r : Register) : RegState :=
  (key, r) :: st

/-- Python `!=` between the cached integer `offset` field and the string
`group` argument (generate_header.py line 64 compares `offset != group`):
in Python an `int` and a `str` are never equal, so this test is always true. -/
def pyIntNeStr (_ : Int) (_ : String) : Bool := true

/-- `Register.make_register` (generate_header.py lines 54-70).  The key is
`f'{name}-{group}'`.  When the name is not `'reserved'` and the key is
cached, the code compares the cached entry's `offset` against the new
`offset`, against the new `width`, and against the new `group` (lines 62-64
compare the `offset` field three times) and raises on any mismatch; otherwise
it stores and returns a fresh instance. -/
def make_register (st : RegState) (name : String) (offset width : Int)
    (group : String) : Except Err (Register × RegState) :=
  let key := name ++ "-" ++ group
  if name ≠ "reserved" then
    match regGet st key with
    | some r =>
        if r.offset ≠ offset ∨ r.offset ≠ width ∨ pyIntNeStr r.offset group then
          .error .conflictingDefinition
        else
          .ok (r, st)
    | none =>
        let r : Register := ⟨name, offset, width, group⟩
        .ok (r, regPut st key r)
  else
    let r : Register := ⟨name, offset, width, group⟩
    .ok (r, regPut st key r)

/-- Interrupt (generate_header.py lines 73-77). -/
structure Interrupt : Type where
  number : Int
  name : String
deriving DecidableEq

/-- The run-scoped `Interrupt.all_interrupts` cache. -/
abbrev IntState : Type := List (String × Interrupt)

/-- Dict lookup in the interrupt cache. -/
def intGet (st : IntState) (key : String) : Option Interrupt :=
  match st with
  | [] => none
  | (k, i) :: rest => if k = key then some i else intGet rest key

/-- Dict assignment `all_interrupts[name] = i`. -/
def intPut (st : IntState) (key : String) (i : Interrupt) : IntState :=
  (key, i) :: st

/-- `Interrupt.make_interrupt` (generate_header.py lines 79-88): a non-empty
cached name whose cached number differs from the new number raises; a
non-empty cached name with the same number returns the cached instance;
otherwise (fresh or empty name) a new instance is stored and returned. -/
def make_interrupt (st : IntState) (number : Int) (name : String) :
    Except Err (Interrupt × IntState) :=
  if name ≠ "" then
    match intGet st name with
    | some i =>
        if i.number ≠ number then .error .conflictingDefinition
        else .ok (i, st)
    | none =>
        let i : Interrupt := ⟨number, name⟩
        .ok (i, intPut st name i)
  else
    let i : Interrupt := ⟨number, name⟩
    .ok (i, intPut st name i)

/-- `DeviceBase` (generate_header.py lines 91-98). -/
structure DeviceBase : Type where
  name : String
  index : Nat
  base_interrupt : Int
  base_address : Int
  interrupts : List Interrupt
  registers : List Register
deriving DecidableEq

/-! ### The offset-macro renderer (generate_header.py lines 153-192) -/

/-- Python `x >> 3` on an int: floor division by 8. -/
def pyShr3 (x : Int) : Int := Int.fdiv x 8

/-- Python `x & 0x7` on an int: the nonnegative residue mod 8. -/
def pyAnd7 (x : Int) : Int := Int.emod x 8

/-- The normalisation `s.upper().strip().replace(" ", "")` applied to both
the register name and the group (lines 169-170). -/
def normName (s : String) : String := pyRemoveSpaces (pyStrip (pyUpper s))

/-- The group after the doubled-segment strip (lines 174-175): when the
normalised register name starts with the group's last underscore-delimited
segment followed by `'_'`, the last segment is dropped from the group. -/
def strippedGroup (name group : String) : String :=
  if pyStartsWith name ((pySplitU group).getLastD "" ++ "_") then
    pyJoin "_" (pySplitU group).dropLast
  else group

/-- The four-line macro block of one register (lines 177-188), with the
`NAME_DICT` diagnostic counter omitted (it never changes the returned text).
Each f-string ends in a newline and the lines are accumulated with `+=`.
The source's `group is not ""` identity test behaves as string inequality
(CPython interns the empty string) and is modelled as such. -/
def macroBlock (cap_device : String) (r : Register) : String :=
  let name := normName r.name
  let group := strippedGroup name (normName r.group)
  if group ≠ "" then
    "#define " ++ cap_device ++ "_REGISTER_" ++ group ++ "_" ++ name ++ " " ++
        toString r.offset ++ "\n" ++
      ("#define " ++ cap_device ++ "_REGISTER_" ++ group ++ "_" ++ name ++
        "_BYTE " ++ toString (pyShr3 r.offset) ++ "\n") ++
      ("#define " ++ cap_device ++ "_REGISTER_" ++ group ++ "_" ++ name ++
        "_BIT " ++ toString (pyAnd7 r.offset) ++ "\n") ++
      ("#define " ++ cap_device ++ "_REGISTER_" ++ group ++ "_" ++ name ++
        "_WIDTH " ++ toString r.width ++ "\n")
  else
    "#define " ++ cap_device ++ "_REGISTER_" ++ name ++ " " ++
        toString r.offset ++ "\n" ++
      ("#define " ++ cap_device ++ "_REGISTER_" ++ name ++
        "_BYTE " ++ toString (pyShr3 r.offset) ++ "\n") ++
      ("#define " ++ cap_device ++ "_REGISTER_" ++ name ++
        "_BIT " ++ toString (pyAnd7 r.offset) ++ "\n") ++
      ("#define " ++ cap_device ++ "_REGISTER_" ++ name ++
        "_WIDTH " ++ toString r.width ++ "\n")

/-- The `rv` accumulation loop of `generate_offsets` (lines 166-190):
registers named `'reserved'` are skipped, every other register contributes
its four-line block. -/
def offsetsBlocks (cap_device : String) : List Register → List String
  | [] => []
  | r :: rs =>
      if r.name = "reserved" then offsetsBlocks cap_device rs
      else macroBlock cap_device r :: offsetsBlocks cap_device rs

/-- `generate_offsets` (generate_header.py lines 153-192): only the first
device of the list is consulted; the blocks are joined with `'\n'`. -/
def generate_offsets (device_name : String) (dev_list : List DeviceBase) :
    String :=
  match dev_list with
  | [] => ""
  | d :: _ => pyJoin "\n" (offsetsBlocks (pyUpper device_name) d.registers)

/-! ### Interrupt defines and the base header (lines 195-242) -/

/-- The named-offset lines of `generate_interrupt_defines` (lines 210-217):
one line per interrupt with a non-empty name, the number relative to the
first device's base interrupt. -/
def interruptOffsetLines (dev : String) (base : Int) :
    List Interrupt → List String
  | [] => []
  | i :: is =>
      if i.name ≠ "" then
        ("#define " ++ dev ++ "_INTERRUPT_OFFSET_" ++
            pyRemoveSpaces (pyUpper i.name) ++ " " ++
            toString (i.number - base)) ::
          interruptOffsetLines dev base is
      else interruptOffsetLines dev base is

/-- `generate_interrupt_defines` (generate_header.py lines 195-219):
indexes `bases[0]` (an `IndexError` on an empty device list); when the first
device has no interrupts the result is empty. -/
def generate_interrupt_defines (bases : List DeviceBase) (device : String) :
    Except Err String :=
  match bases with
  | [] => .error .indexError
  | b0 :: _ =>
      let dev := pyRemoveSpaces (pyUpper device)
      if b0.interrupts ≠ [] then
        .ok (pyJoin "\n"
          (["#define ABSOLUTE_INTERRUPT(base, relative) ((base) + (relative))",
            "#define " ++ dev ++ "_INTERRUPT_BASES \x7b " ++
              pyJoin "," (bases.map (fun b => toString b.base_interrupt)) ++
              " \x7d",
            "#define " ++ dev ++ "_INTERRUPT_COUNT " ++
              toString b0.interrupts.length ++ "\n"] ++
           interruptOffsetLines dev b0.base_interrupt b0.interrupts))
      else .ok ""

/-- Python `hex(n)`: lowercase hexadecimal with a `0x` prefix (`-0x...` for
negative values). -/
def pyHex (n : Int) : String :=
  match n with
  | .ofNat m => "0x" ++ ⟨Nat.toDigits 16 m⟩
  | .negSucc m => "-0x" ++ ⟨Nat.toDigits 16 (m + 1)⟩

/-- `generate_base_hdr` (generate_header.py lines 224-242): the dedented
base-header template with every placeholder substituted.  Literal braces of
the template are written with their escapes. -/
def generate_base_hdr (vendor device : String) (devlist : List DeviceBase) :
    Except Err String := do
  let base := pyJoin ", " (devlist.map (fun d => pyHex d.base_address))
  let interrupts ← generate_interrupt_defines devlist device
  let cap := pyUpper device
  .ok ("\n#include <metal/compiler.h>\n#include <metal/io.h>\n\n#ifndef " ++
    vendor ++ "_" ++ device ++ "_h\n#define " ++ vendor ++ "_" ++ device ++
    "_h\n\n#define " ++ cap ++ "_COUNT " ++ toString devlist.length ++
    "\n\n// To use " ++ cap ++ "_INTERRUPT_BASES, use it as the\n" ++
    "// initializer to an array of ints, i.e.\n// int interrupt_bases[" ++
    cap ++ "_COUNT] = " ++ cap ++ "_INTERRUPT_BASES;\n// there are " ++ cap ++
    "_INTERRUPT_COUNT interrupts per\n// device.\n\n" ++ interrupts ++
    "\n\n// To use " ++ cap ++ "_BASES, use it as the\n" ++
    "// initializer to an array of ints, i.e.\n// int bases[" ++ cap ++
    "_COUNT] = " ++ cap ++ "_BASES;\n\n#define " ++ cap ++ "_BASES \x7b" ++
    base ++ "\x7d\n\n// : these macros have control_base as a hidden input\n" ++
    "// use with the _BYTE #define's\n#define METAL_" ++ cap ++
    "_REG(offset) ((unsigned long)control_base + (offset))\n#define METAL_" ++
    cap ++ "_REGW(offset) \\\n   (__METAL_ACCESS_ONCE((__metal_io_u32 *)METAL_" ++
    cap ++ "_REG(offset)))\n\n#define METAL_" ++ cap ++
    "_REGBW(offset) \\\n   (__METAL_ACCESS_ONCE((uint8_t *)METAL_" ++ cap ++
    "_REG(offset)))\n\n// METAL_NAME => bit offset from base\n" ++
    "// METAL_NAME_BYTE => (uint8_t *) offset from base\n" ++
    "// METAL_NAME_BIT => number of bits into METAL_NAME_BYTE\n" ++
    "// METAL_NAME_WIDTH => bit width\n\n" ++
    generate_offsets device devlist ++ "\n\n#endif\n")

end Header

namespace Header

/-! ### Object-model queries (generate_header.py lines 247-308)

The object-model schema declares `_types` as an array of strings; a node
whose `_types` value violates that would make the Python filters raise, and
such malformed documents are outside the modelled well-formed trees. -/

/-- The `_types` array of a map node, when present. -/
def typesOf (x : JVal) : Option JList :=
  match x with
  | .obj kvs =>
      match kvs.get "_types" with
      | some (.arr ts) => some ts
      | _ => none
  | _ => none

/-- Python `s in lst` where `lst` holds parsed JSON values: `==` against a
non-string element is always false, so only string elements can match. -/
def jlistHasStr (s : String) : JList → Bool
  | .nil => false
  | .cons (.str t) rest => s = t || jlistHasStr s rest
  | .cons _ rest => jlistHasStr s rest

/-- The filter of `find_devices` (generate_header.py lines 306-307): the node
has a `_types` entry and that list contains the exact string `'OM' + device`. -/
def findDevicesFilter (device : String) (x : JVal) : Bool :=
  match typesOf x with
  | some ts => jlistHasStr ("OM" ++ device) ts
  | none => false

/-- `find_devices` (generate_header.py lines 303-308): the walked nodes that
pass the `_types` filters, enumerated in pre-order discovery order. -/
def find_devices (object_model : JVal) (device : String) : List (Nat × JVal) :=
  ((walk object_model).filter (findDevicesFilter device)).enum

/-- `type_match` of `find_interrupts` (generate_header.py lines 250-255):
some type tag, lowercased, ends with the lowercased device name. -/
def type_match (dev : String) (types : List String) : Bool :=
  types.any (fun a => pyEndsWith (pyLower a) (pyLower dev))

/-- `type_match` applied to a `_types` array (string tags only, see above). -/
def jlistAnySuffix (dev : String) : JList → Bool
  | .nil => false
  | .cons (.str t) rest =>
      pyEndsWith (pyLower t) (pyLower dev) || jlistAnySuffix dev rest
  | .cons _ rest => jlistAnySuffix dev rest

/-- The device filter of `find_interrupts` (lines 258-259). -/
def interruptsDeviceFilter (device : String) (x : JVal) : Bool :=
  match typesOf x with
  | some ts => jlistAnySuffix device ts
  | none => false

/-- The interrupt-node filter of `find_interrupts` (lines 264-265): the
`_types` list contains the exact string `'OMInterrupt'`. -/
def interruptNodeFilter (x : JVal) : Bool :=
  match typesOf x with
  | some ts => jlistHasStr "OMInterrupt" ts
  | none => false

/-- The interrupt nodes selected by `find_interrupts` (lines 257-265).  The
loop of lines 262-265 rebinds `p` once per matched device node, so only the
interrupt nodes of the last matched device survive; when no device node
matches, `p` remains the empty device list. -/
def interrupt_nodes (object_model : JVal) (device : String) : List JVal :=
  let matched := (walk object_model).filter (interruptsDeviceFilter device)
  match matched.getLast? with
  | none => []
  | some d => (walk d).filter interruptNodeFilter

/-- `an_interrupt['numberAtReceiver']` (line 269): key lookup on a map node,
and the value must be an integer. -/
def numberAtReceiverOf (x : JVal) : Except Err Int :=
  match x with
  | .obj kvs =>
      match kvs.get "numberAtReceiver" with
      | some (.int n) => .ok n
      | some _ => .error .typeError
      | none => .error (.keyError "numberAtReceiver")
  | _ => .error .typeError

/-- `an_interrupt.get('name', '')` (line 270): missing key defaults to the
empty string; a present non-string value would make `'@' in name` raise. -/
def nameFieldOf (x : JVal) : Except Err String :=
  match x with
  | .obj kvs =>
      match kvs.get "name" with
      | some (.str s) => .ok s
      | some _ => .error .typeError
      | none => .ok ""
  | _ => .error .typeError

/-- The extraction loop of `find_interrupts` (generate_header.py lines
267-274): a name containing `'@'` is emptied before the interrupt is made,
and every node contributes one entry of `rv`. -/
def extract_interrupts (st : IntState) :
    List JVal → Except Err (List Interrupt × IntState)
  | [] => .ok ([], st)
  | n :: ns => do
      let number ← numberAtReceiverOf n
      let rawName ← nameFieldOf n
      let name := if pyContainsChar rawName '@' then "" else rawName
      let (i, st1) ← make_interrupt st number name
      let (is, st2) ← extract_interrupts st1 ns
      .ok (i :: is, st2)

/-- `find_interrupts` (generate_header.py lines 247-276). -/
def find_interrupts (st : IntState) (object_model : JVal) (device : String) :
    Except Err (List Interrupt × IntState) :=
  extract_interrupts st (interrupt_nodes object_model device)

/-! ### `find_registers` (generate_header.py lines 279-300) -/

/-- Python `d[k]` on a parsed JSON value: `KeyError` when absent, and the
receiver must be a map. -/
def jGet (x : JVal) (key : String) : Except Err JVal :=
  match x with
  | .obj kvs =>
      match kvs.get key with
      | some v => .ok v
      | none => .error (.keyError key)
  | _ => .error .typeError

/-- A parsed JSON value used as a sequence. -/
def asArr (x : JVal) : Except Err (List JVal) :=
  match x with
  | .arr xs => .ok xs.toList
  | _ => .error .typeError

/-- A parsed JSON value used as an integer. -/
def asInt (x : JVal) : Except Err Int :=
  match x with
  | .int n => .ok n
  | _ => .error .typeError

/-- A parsed JSON value used as a string. -/
def asStr (x : JVal) : Except Err String :=
  match x with
  | .str s => .ok s
  | _ => .error .typeError

/-- The inner loop of `find_registers` (lines 288-298): decode each register
field's description and bit range and route it through
`Register.make_register`. -/
def processFields (st : RegState) :
    List JVal → Except Err (List Register × RegState)
  | [] => .ok ([], st)
  | f :: fs => do
      let desc ← jGet f "description"
      let name ← asStr (← jGet desc "name")
      let group ← asStr (← jGet desc "group")
      let br ← jGet f "bitRange"
      let offset ← asInt (← jGet br "base")
      let width ← asInt (← jGet br "size")
      let (r, st1) ← make_register st name offset width group
      let (rs, st2) ← processFields st1 fs
      .ok (r :: rs, st2)

/-- The region loop of `find_registers` (lines 281-298): a region whose
`addressSets` list does not have exactly one element raises before any of the
region's registers is touched. -/
def processRegions (st : RegState) :
    List JVal → Except Err (List Register × RegState)
  | [] => .ok ([], st)
  | mr :: mrs => do
      let asets ← asArr (← jGet mr "addressSets")
      if asets.length ≠ 1 then .error .unsupportedAddressConfiguration
      else do
        let fields ← asArr (← jGet (← jGet mr "registerMap") "registerFields")
        let (rs1, st1) ← processFields st fields
        let (rs2, st2) ← processRegions st1 mrs
        .ok (rs1 ++ rs2, st2)

/-- `find_registers` (generate_header.py lines 279-300). -/
def find_registers (st : RegState) (dev_om : JVal) :
    Except Err (List Register × RegState) := do
  processRegions st (← asArr (← jGet dev_om "memoryRegions"))

/-! ### `main` (generate_header.py lines 359-405), as the pure generation
pipeline: the produced header text, or the first raised error.  File-system
concerns (paths, the overwrite flag, mkdir) are outside the model; an error
means no header text exists to be written. -/

/-- `lst[0]` (Python indexing): `IndexError` on an empty list. -/
def pyIndex0 (xs : List JVal) : Except Err JVal :=
  match xs with
  | [] => .error .indexError
  | x :: _ => .ok x

/-- `dev_om['memoryRegions'][0]['addressSets'][0]['base']` (line 379). -/
def baseAddressOf (dev_om : JVal) : Except Err Int := do
  let mr0 ← pyIndex0 (← asArr (← jGet dev_om "memoryRegions"))
  let as0 ← pyIndex0 (← asArr (← jGet mr0 "addressSets"))
  asInt (← jGet as0 "base")

/-- The device loop of `main` (lines 375-386): registers, then interrupts,
then the base interrupt (`min` raises on an empty interrupt list), then the
base address; the dedup caches thread through the whole run. -/
def processDevices (rst : RegState) (ist : IntState) (device : String) :
    List (Nat × JVal) → Except Err (List DeviceBase × RegState × IntState)
  | [] => .ok ([], rst, ist)
  | (index, dev_om) :: rest => do
      let (reglist, rst1) ← find_registers rst dev_om
      let (intlist, ist1) ← find_interrupts ist dev_om device
      let base_int ← pyMin (intlist.map (·.number))
      let base_address ← baseAddressOf dev_om
      let (ds, rst2, ist2) ← processDevices rst1 ist1 device rest
      .ok (⟨device, index, base_int, base_address, intlist, reglist⟩ :: ds,
           rst2, ist2)

/-- The generation run of `main` (generate_header.py lines 359-396) with
fresh caches: resolve the devices, build every `DeviceBase`, and render the
base header.  An error aborts before any text exists. -/
def runGeneration (object_model : JVal) (vendor device : String) :
    Except Err String := do
  let (devlist, _, _) ←
    processDevices [] [] device (find_devices object_model device)
  generate_base_hdr vendor device devlist

end Header

/-! ## Specification-side renderer for the offset macros

`specOffsetsLiteral` transcribes the claim exactly as worded (the group's
last segment is stripped whenever the normalised register name begins with
that segment); `specOffsetsAmended` differs only in requiring the segment to
be followed by an underscore.  Both are compared against the source-derived
`Header.generate_offsets`. -/

namespace Header

/-- The claim's macro-name composition: device, group and register name
joined by underscores after normalisation; an empty group contributes no
segment. -/
def specMacroName (cap_device group name : String) : String :=
  if group = "" then cap_device ++ "_REGISTER_" ++ name
  else cap_device ++ "_REGISTER_" ++ group ++ "_" ++ name

/-- The claim's four macro lines for one register: absolute bit offset, byte
offset (`offset >> 3`), bit-within-byte (`offset & 0x7`), and width. -/
def specFourLines (mn : String) (offset width : Int) : List String :=
  ["#define " ++ mn ++ " " ++ toString offset,
   "#define " ++ (mn ++ "_BYTE") ++ " " ++ toString (pyShr3 offset),
   "#define " ++ (mn ++ "_BIT") ++ " " ++ toString (pyAnd7 offset),
   "#define " ++ (mn ++ "_WIDTH") ++ " " ++ toString width]

/-- Group stripping as the claim literally words it: the last
underscore-delimited segment is dropped when the normalised register name
begins with that segment. -/
def specStripLiteral (name group : String) : String :=
  if pyStartsWith name ((pySplitU group).getLastD "") then
    pyJoin "_" (pySplitU group).dropLast
  else group

/-- Group stripping as amended: the segment must be followed by an
underscore in the register name. -/
def specStripAmended (name group : String) : String :=
  if pyStartsWith name ((pySplitU group).getLastD "" ++ "_") then
    pyJoin "_" (pySplitU group).dropLast
  else group

/-- The claim's per-register contribution (literal wording): nothing for a
register named `'reserved'`, else the four macro lines, each newline
terminated. -/
def specBlockLiteral (cap_device : String) (r : Register) : Option String :=
  if r.name = "reserved" then none
  else
    let name := normName r.name
    let group := specStripLiteral name (normName r.group)
    some (String.join
      ((specFourLines (specMacroName cap_device group name)
          r.offset r.width).map (· ++ "\n")))

/-- The claim's per-register contribution, amended strip condition. -/
def specBlockAmended (cap_device : String) (r : Register) : Option String :=
  if r.name = "reserved" then none
  else
    let name := normName r.name
    let group := specStripAmended name (normName r.group)
    some (String.join
      ((specFourLines (specMacroName cap_device group name)
          r.offset r.width).map (· ++ "\n")))

/-- The claim's rendering over the first device instance's register list
(literal wording). -/
def specOffsetsLiteral (device : String) (devs : List DeviceBase) : String :=
  match devs with
  | [] => ""
  | d :: _ =>
      pyJoin "\n" (d.registers.filterMap (specBlockLiteral (pyUpper device)))

/-- The claim's rendering, amended strip condition. -/
def specOffsetsAmended (device : String) (devs : List DeviceBase) : String :=
  match devs with
  | [] => ""
  | d :: _ =>
      pyJoin "\n" (d.registers.filterMap (specBlockAmended (pyUpper device)))

/-! ### Concrete example documents used in the claim analyses -/

/-- An object-model node whose single type tag ends, case-insensitively,
with `"UART"` without being the exact tag `"OMUART"`. -/
def c3Node : JVal :=
  .obj (.cons "_types" (.arr (.cons (.str "Vendor.WidgetUART") .nil)) .nil)

/-- A register whose normalised name begins with the group's last segment
but not with that segment followed by an underscore. -/
def c6Reg : Register := ⟨"GX", 12, 8, "G"⟩

/-- A device instance holding `c6Reg`. -/
def c6Dev : DeviceBase := ⟨"D", 0, 0, 0, [], [c6Reg]⟩

/-- A memory region exposing two address sets. -/
def c7Region : JVal :=
  .obj (.cons "addressSets"
    (.arr (.cons (.obj .nil) (.cons (.obj .nil) .nil))) .nil)

/-- A device node of type `OMBar` whose only memory region is `c7Region`. -/
def c7Dev : JVal :=
  .obj (.cons "_types" (.arr (.cons (.str "OMBar") .nil))
    (.cons "memoryRegions" (.arr (.cons c7Region .nil)) .nil))

/-- A device node of type `OMFoo` with no memory regions and no interrupt
nodes anywhere in its subtree. -/
def c10Dev : JVal :=
  .obj (.cons "_types" (.arr (.cons (.str "OMFoo") .nil))
    (.cons "memoryRegions" (.arr .nil) .nil))

theorem strMergeByte (y : String) : "_BYTE" ++ (" " ++ y) = "_BYTE " ++ y := by
  rw [← String.append_assoc]
  have h : "_BYTE" ++ " " = "_BYTE " := by decide
  rw [h]

theorem strMergeBit (y : String) : "_BIT" ++ (" " ++ y) = "_BIT " ++ y := by
  rw [← String.append_assoc]
  have h : "_BIT" ++ " " = "_BIT " := by decide
  rw [h]

theorem strMergeWidth (y : String) : "_WIDTH" ++ (" " ++ y) = "_WIDTH " ++ y := by
  rw [← String.append_assoc]
  have h : "_WIDTH" ++ " " = "_WIDTH " := by decide
  rw [h]

theorem strNilAppend (s : String) : "" ++ s = s := rfl

theorem macroBlock_eq_specBlockAmended (cap : String) (r : Register)
    (hr : r.name ≠ "reserved") :
    specBlockAmended cap r = some (macroBlock cap r) := by
  unfold specBlockAmended macroBlock specStripAmended strippedGroup
  rw [if_neg hr]
  by_cases hg : (if pyStartsWith (normName r.name)
      ((pySplitU (normName r.group)).getLastD "" ++ "_") then
        pyJoin "_" (pySplitU (normName r.group)).dropLast
      else normName r.group) = "" <;>
    simp only [hg, if_pos, if_neg, ite_true, ite_false, specMacroName,
      specFourLines, String.join, List.map, List.foldl, strNilAppend,
      String.append_assoc, strMergeByte, strMergeBit, strMergeWidth,
      ne_eq, not_true_eq_false, not_false_eq_true]

end Header

/-! ## Helper lemmas -/

theorem build_reglist_ok_iff (regs : List Drivers.DuhReg) :
    (∃ rl, Drivers.build_reglist regs = .ok rl) ↔
      ∀ q ∈ regs, q.size = 8 ∨ q.size = 16 ∨ q.size = 32 ∨ q.size = 64 := by
  induction regs with
  | nil => simp [Drivers.build_reglist]
  | cons r rs ih =>
      by_cases hr : r.size = 8 ∨ r.size = 16 ∨ r.size = 32 ∨ r.size = 64
      · rw [Drivers.build_reglist, if_pos hr]
        simp only [List.mem_cons, forall_eq_or_imp]
        constructor
        · rintro ⟨rl, hrl⟩
          refine ⟨hr, ih.mp ?_⟩
          cases h : Drivers.build_reglist rs with
          | ok tail => exact ⟨tail, rfl⟩
          | error e => rw [h] at hrl; exact absurd hrl (by simp [Except.map])
        · rintro ⟨-, hall⟩
          obtain ⟨rl, hrl⟩ := ih.mpr hall
          exact ⟨_, by rw [hrl]; rfl⟩
      · rw [Drivers.build_reglist, if_neg hr]
        simp only [List.mem_cons, forall_eq_or_imp]
        constructor
        · rintro ⟨rl, hrl⟩; cases hrl
        · rintro ⟨h, -⟩; exact absurd h hr

theorem build_reglist_first_bad (pre post : List Drivers.DuhReg)
    (r : Drivers.DuhReg)
    (hpre : ∀ q ∈ pre, q.size = 8 ∨ q.size = 16 ∨ q.size = 32 ∨ q.size = 64)
    (hr : ¬(r.size = 8 ∨ r.size = 16 ∨ r.size = 32 ∨ r.size = 64)) :
    Drivers.build_reglist (pre ++ r :: post) =
      .error (.invalidRegisterWidth r.size r.name) := by
  induction pre with
  | nil => rw [List.nil_append, Drivers.build_reglist, if_neg hr]
  | cons p pre' ih =>
      rw [List.cons_append, Drivers.build_reglist,
        if_pos (hpre p (List.mem_cons_self p pre')),
        ih (fun q hq => hpre q (List.mem_cons_of_mem p hq))]
      rfl

/-! ## Claim theorems -/

/-- C1 (code bug): the claim says re-extracting an identical register
descriptor returns the existing canonical instance.  The conflict check of
`Register.make_register` (generate_header.py lines 62-64) compares the cached
`offset` field against the new offset, the new width and the new group, so
re-extracting `(name="CTRL", group="G", offset=0, width=32)` right after its
first extraction raises instead of returning the cached instance. -/
theorem c1_identical_reextraction_raises :
    Header.make_register [] "CTRL" 0 32 "G" =
      .ok (⟨"CTRL", 0, 32, "G"⟩, [("CTRL-G", ⟨"CTRL", 0, 32, "G"⟩)]) ∧
    Header.make_register [("CTRL-G", (⟨"CTRL", 0, 32, "G"⟩ : Header.Register))]
        "CTRL" 0 32 "G" = .error .conflictingDefinition := by
  exact ⟨rfl, rfl⟩

/-- C2: the register-list construction of generate_drivers.py `main` succeeds
exactly when every descriptor's width lies in {8, 16, 32, 64}; the first
descriptor with any other width makes it fail with the invalid-width error
naming that register. -/
theorem c2_width_validation (regs pre post : List Drivers.DuhReg)
    (r : Drivers.DuhReg) :
    ((∃ rl, Drivers.build_reglist regs = .ok rl) ↔
      ∀ q ∈ regs, q.size = 8 ∨ q.size = 16 ∨ q.size = 32 ∨ q.size = 64) ∧
    (regs = pre ++ r :: post →
      (∀ q ∈ pre, q.size = 8 ∨ q.size = 16 ∨ q.size = 32 ∨ q.size = 64) →
      ¬(r.size = 8 ∨ r.size = 16 ∨ r.size = 32 ∨ r.size = 64) →
      Drivers.build_reglist regs = .error (.invalidRegisterWidth r.size r.name)) :=
  ⟨build_reglist_ok_iff regs,
   fun he hpre hr => he ▸ build_reglist_first_bad pre post r hpre hr⟩

/-- C2 witness: a 32-bit register extracts; a following 7-bit register fails
with the error naming it. -/
theorem c2_width_validation_witness :
    Drivers.build_reglist [⟨"CTRL", 0, 32⟩, ⟨"BAD", 0, 7⟩] =
      .error (.invalidRegisterWidth 7 "BAD") :=
  (c2_width_validation [⟨"CTRL", 0, 32⟩, ⟨"BAD", 0, 7⟩]
    [⟨"CTRL", 0, 32⟩] [] ⟨"BAD", 0, 7⟩).2 rfl (by decide) (by decide)

theorem searchL_eq_bind (pat : String) : ∀ xs : JList,
    Drivers.searchL pat xs =
      xs.toList.flatMap (Drivers.search_json_component pat)
  | .nil => rfl
  | .cons x rest => by
      simp [Drivers.searchL, JList.toList, searchL_eq_bind pat rest]

theorem searchVals_eq_bind (pat : String) : ∀ kvs : JObj,
    Drivers.searchVals pat kvs =
      kvs.valuesList.flatMap (Drivers.search_json_component pat)
  | .nil => rfl
  | .cons k v rest => by
      simp [Drivers.searchVals, JObj.valuesList, searchVals_eq_bind pat rest]

theorem entryMatch_iff (pat k : String) (v : JVal) :
    Drivers.entryMatch pat k v = true ↔
      (Drivers.reMatch pat k = true ∨
        ∃ s, v = JVal.str s ∧ Drivers.reMatch pat s = true) := by
  cases v <;> simp [Drivers.entryMatch]

theorem objAnyMatch_iff (pat : String) : ∀ kvs : JObj,
    Drivers.objAnyMatch pat kvs = true ↔
      ∃ p ∈ kvs.entries, Drivers.entryMatch pat p.1 p.2 = true
  | .nil => by simp [Drivers.objAnyMatch, JObj.entries]
  | .cons k v rest => by
      simp [Drivers.objAnyMatch, JObj.entries, objAnyMatch_iff pat rest]

/-- C4: the key-or-value matcher uses prefix semantics: on a one-entry map
the query yields the node exactly when the literal pattern is a prefix of
the key or of the string value; in particular pattern `"foo"` matches value
`"foobar"` and does not match `"xfoobar"`. -/
theorem c4_matcher_semantics :
    (∀ pat k s : String,
      Drivers.search_json_component pat (.obj (.cons k (.str s) .nil)) ≠ [] ↔
        (pat.data <+: k.data ∨ pat.data <+: s.data)) ∧
    Drivers.search_json_component "foo" (.obj (.cons "k" (.str "foobar") .nil)) =
      [.obj (.cons "k" (.str "foobar") .nil)] ∧
    Drivers.search_json_component "foo" (.obj (.cons "k" (.str "xfoobar") .nil)) =
      [] := by
  refine ⟨fun pat k s => ?_, by decide, by decide⟩
  have hval : Drivers.searchVals pat (.cons k (.str s) .nil) = [] := rfl
  have hiff : Drivers.objAnyMatch pat (.cons k (.str s) .nil) = true ↔
      (pat.data <+: k.data ∨ pat.data <+: s.data) := by
    simp [Drivers.objAnyMatch, Drivers.entryMatch, Drivers.reMatch,
      List.isPrefixOf_iff_prefix]
  cases h : Drivers.objAnyMatch pat (.cons k (.str s) .nil) with
  | true =>
      simp only [Drivers.search_json_component, h, if_true]
      simpa using hiff.mp h
  | false =>
      simp only [Drivers.search_json_component, h, Bool.false_eq_true,
        if_false, hval]
      constructor
      · intro hne; exact absurd rfl hne
      · intro hp
        rw [← hiff] at hp
        rw [h] at hp
        cases hp

/-- C4 witness: the prefix characterisation at the spec's example strings. -/
theorem c4_matcher_semantics_witness :
    Drivers.search_json_component "foo" (.obj (.cons "k" (.str "foobar") .nil)) ≠
        [] ↔
      ("foo".data <+: "k".data ∨ "foo".data <+: "foobar".data) :=
  c4_matcher_semantics.1 "foo" "k" "foobar"

/-- C5: the key-or-value query prunes at a matching map node — the whole node
is yielded and its subtree is not searched; at a non-matching map node the
query recurses into the values; sequences are searched element-wise; and a
map node matches exactly when some key or some string value matches. -/
theorem c5_match_pruning (pat : String) (kvs : JObj) (xs : JList) :
    (Drivers.objAnyMatch pat kvs = true →
      Drivers.search_json_component pat (.obj kvs) = [.obj kvs]) ∧
    (Drivers.objAnyMatch pat kvs = false →
      Drivers.search_json_component pat (.obj kvs) =
        kvs.valuesList.flatMap (Drivers.search_json_component pat)) ∧
    (Drivers.search_json_component pat (.arr xs) =
      xs.toList.flatMap (Drivers.search_json_component pat)) ∧
    (Drivers.objAnyMatch pat kvs = true ↔
      ∃ p ∈ kvs.entries, (Drivers.reMatch pat p.1 = true ∨
        ∃ s, p.2 = JVal.str s ∧ Drivers.reMatch pat s = true)) := by
  refine ⟨fun h => ?_, fun h => ?_, ?_, ?_⟩
  · simp [Drivers.search_json_component, h]
  · simp [Drivers.search_json_component, h, searchVals_eq_bind]
  · simp [Drivers.search_json_component, searchL_eq_bind]
  · rw [objAnyMatch_iff]
    constructor
    · rintro ⟨p, hp, hm⟩; exact ⟨p, hp, (entryMatch_iff pat p.1 p.2).mp hm⟩
    · rintro ⟨p, hp, hm⟩; exact ⟨p, hp, (entryMatch_iff pat p.1 p.2).mpr hm⟩

/-- C5 witness: at a map with a matching value the whole node is yielded and
nothing beneath it. -/
theorem c5_match_pruning_witness :
    Drivers.search_json_component "foo"
        (.obj (.cons "k" (.str "foobar") .nil)) =
      [.obj (.cons "k" (.str "foobar") .nil)] :=
  (c5_match_pruning "foo" (.cons "k" (.str "foobar") .nil) .nil).1 (by decide)

/-- C8: interrupt extraction dedups by non-empty name — a cached non-empty
name with the same number returns the cached instance unchanged, a cached
non-empty name with a different number fails with the conflict error, and a
fresh name is accepted for any number (no range validation). -/
theorem c8_interrupt_dedup (st : Header.IntState) (name : String)
    (number : Int) (i : Header.Interrupt) :
    (name ≠ "" → Header.intGet st name = some i → i.number = number →
      Header.make_interrupt st number name = .ok (i, st)) ∧
    (name ≠ "" → Header.intGet st name = some i → i.number ≠ number →
      Header.make_interrupt st number name = .error .conflictingDefinition) ∧
    (Header.intGet st name = none →
      Header.make_interrupt st number name =
        .ok (⟨number, name⟩, Header.intPut st name ⟨number, name⟩)) := by
  refine ⟨fun h1 h2 h3 => ?_, fun h1 h2 h3 => ?_, fun h2 => ?_⟩
  · rw [Header.make_interrupt, if_pos h1, h2]
    simp [h3]
  · rw [Header.make_interrupt, if_pos h1, h2]
    simp [h3]
  · by_cases h1 : name = ""
    · rw [Header.make_interrupt, if_neg (by simp [h1])]
    · rw [Header.make_interrupt, if_pos h1, h2]

/-- C8 witness: re-extracting `("irq", 7)` over a cache holding it returns
the cached instance; re-extracting `("irq", 8)` fails with the conflict
error. -/
theorem c8_interrupt_dedup_witness :
    Header.make_interrupt [("irq", ⟨7, "irq"⟩)] 7 "irq" =
      .ok (⟨7, "irq"⟩, [("irq", ⟨7, "irq"⟩)]) ∧
    Header.make_interrupt [("irq", ⟨7, "irq"⟩)] 8 "irq" =
      .error .conflictingDefinition :=
  ⟨(c8_interrupt_dedup [("irq", ⟨7, "irq"⟩)] "irq" 7 ⟨7, "irq"⟩).1
      (by decide) rfl rfl,
   (c8_interrupt_dedup [("irq", ⟨7, "irq"⟩)] "irq" 8 ⟨7, "irq"⟩).2.1
      (by decide) rfl (by decide)⟩

theorem jlistHasStr_iff (s : String) : ∀ ts : JList,
    Header.jlistHasStr s ts = true ↔ JVal.str s ∈ ts.toList
  | .nil => by simp [Header.jlistHasStr, JList.toList]
  | .cons v rest => by
      have ih := jlistHasStr_iff s rest
      cases v <;> simp [Header.jlistHasStr, JList.toList, ih]

theorem findDevicesFilter_iff (device : String) (x : JVal) :
    Header.findDevicesFilter device x = true ↔
      ∃ kvs ts, x = JVal.obj kvs ∧ kvs.get "_types" = some (JVal.arr ts) ∧
        JVal.str ("OM" ++ device) ∈ ts.toList := by
  cases x with
  | obj kvs =>
      simp only [Header.findDevicesFilter, Header.typesOf]
      cases h : kvs.get "_types" with
      | none => simp [h]
      | some v => cases v <;> simp [h, jlistHasStr_iff]
  | str s => simp [Header.findDevicesFilter, Header.typesOf]
  | int n => simp [Header.findDevicesFilter, Header.typesOf]
  | bool b => simp [Header.findDevicesFilter, Header.typesOf]
  | null => simp [Header.findDevicesFilter, Header.typesOf]
  | arr xs => simp [Header.findDevicesFilter, Header.typesOf]

/-- C3 (amended): a node is matched as a device instance by `find_devices`
exactly when its `_types` list contains the exact string `'OM' + device`
(case-sensitive whole-entry equality); the case-insensitive suffix match is
the semantics of `type_match`, the device filter used during interrupt
extraction, not of device resolution. -/
theorem c3_device_matching (om : JVal) (device : String) (x : JVal)
    (ss : List String) :
    ((∃ i, (i, x) ∈ Header.find_devices om device) ↔
      (x ∈ walk om ∧ ∃ kvs ts, x = JVal.obj kvs ∧
        kvs.get "_types" = some (JVal.arr ts) ∧
        JVal.str ("OM" ++ device) ∈ ts.toList)) ∧
    (Header.type_match device ss = true ↔
      ∃ t ∈ ss, (pyLower device).data <:+ (pyLower t).data) := by
  constructor
  · rw [Header.find_devices]
    constructor
    · rintro ⟨i, hi⟩
      have hx : x ∈ (walk om).filter (Header.findDevicesFilter device) := by
        rw [List.mem_iff_getElem?]
        exact ⟨i, (List.mk_mem_enum_iff_getElem? ).mp hi⟩
      rw [List.mem_filter] at hx
      exact ⟨hx.1, (findDevicesFilter_iff device x).mp hx.2⟩
    · rintro ⟨hw, hrest⟩
      have hx : x ∈ (walk om).filter (Header.findDevicesFilter device) :=
        List.mem_filter.mpr ⟨hw, (findDevicesFilter_iff device x).mpr hrest⟩
      rw [List.mem_iff_getElem?] at hx
      obtain ⟨i, hi⟩ := hx
      exact ⟨i, (List.mk_mem_enum_iff_getElem? ).mpr hi⟩
  · simp [Header.type_match, pyEndsWith, List.isSuffixOf_iff_suffix]

/-- C3 counterexample: a node whose single type tag `"Vendor.WidgetUART"`
case-insensitively ends with the requested name `"UART"` (so the claim says
it is matched) is not matched by `find_devices`. -/
theorem c3_suffix_counterexample :
    Header.type_match "UART" ["Vendor.WidgetUART"] = true ∧
    Header.find_devices Header.c3Node "UART" = [] := ⟨by decide, by decide⟩

/-- C3 witness: the membership characterisation evaluated at the example
node. -/
theorem c3_device_matching_witness :
    (∃ i, (i, Header.c3Node) ∈ Header.find_devices Header.c3Node "UART") ↔
      (Header.c3Node ∈ walk Header.c3Node ∧
        ∃ kvs ts, Header.c3Node = JVal.obj kvs ∧
          kvs.get "_types" = some (JVal.arr ts) ∧
          JVal.str ("OM" ++ "UART") ∈ ts.toList) :=
  (c3_device_matching Header.c3Node "UART" Header.c3Node ["x"]).1

theorem offsetsBlocks_eq_filterMap (cap : String) (regs : List Header.Register) :
    regs.filterMap (Header.specBlockAmended cap) =
      Header.offsetsBlocks cap regs := by
  induction regs with
  | nil => rfl
  | cons r rs ih =>
      by_cases hr : r.name = "reserved"
      · rw [Header.offsetsBlocks, if_pos hr, List.filterMap_cons,
          Header.specBlockAmended, if_pos hr, ih]
      · rw [Header.offsetsBlocks, if_neg hr, List.filterMap_cons,
          Header.macroBlock_eq_specBlockAmended cap r hr, ih]

/-- C6 (amended): the offset-macro rendering of the base header equals the
claim's rendering — per non-`"reserved"` register of the first device
instance, exactly the four newline-terminated macro lines (absolute bit
offset, `offset >> 3`, `offset & 0x7`, width) under the composed macro name —
once the group-strip condition is read as "the normalised register name
begins with the group's last underscore-delimited segment followed by an
underscore". -/
theorem c6_offset_macros (device : String) (devs : List Header.DeviceBase) :
    Header.generate_offsets device devs = Header.specOffsetsAmended device devs := by
  cases devs with
  | nil => rfl
  | cons d rest =>
      rw [Header.generate_offsets, Header.specOffsetsAmended,
        offsetsBlocks_eq_filterMap]

/-- C6 counterexample: for the register `(name="GX", group="G", offset=12,
width=8)` the claim's literal wording (strip the group segment whenever the
register name begins with it) names the macros `D_REGISTER_GX*`, but the
code requires the segment to be followed by an underscore and renders
`D_REGISTER_G_GX*`. -/
theorem c6_literal_counterexample :
    Header.generate_offsets "D" [Header.c6Dev] ≠
      Header.specOffsetsLiteral "D" [Header.c6Dev] := by decide

theorem intGet_mem (k : String) (i : Header.Interrupt) :
    ∀ st : Header.IntState, Header.intGet st k = some i → (k, i) ∈ st := by
  intro st
  induction st with
  | nil => intro h; cases h
  | cons p rest ih =>
      obtain ⟨k', i'⟩ := p
      intro h
      rw [Header.intGet] at h
      by_cases hk : k' = k
      · rw [if_pos hk] at h
        cases h
        exact hk ▸ List.mem_cons_self _ _
      · rw [if_neg hk] at h
        exact List.mem_cons_of_mem _ (ih h)

theorem make_interrupt_ok (st : Header.IntState) (number : Int) (name : String)
    (i : Header.Interrupt) (st' : Header.IntState)
    (h : Header.make_interrupt st number name = .ok (i, st')) :
    i.number = number ∧
    ((∀ p ∈ st, (p.2 : Header.Interrupt).name = p.1) →
      i.name = name ∧ ∀ p ∈ st', (p.2 : Header.Interrupt).name = p.1) := by
  rw [Header.make_interrupt] at h
  by_cases h1 : name = ""
  · rw [if_neg (by simp [h1])] at h
    cases h
    refine ⟨rfl, fun hwf => ⟨rfl, fun p hp => ?_⟩⟩
    rcases List.mem_cons.mp hp with hp | hp
    · rw [hp]
    · exact hwf p hp
  · rw [if_pos h1] at h
    cases hg : Header.intGet st name with
    | none =>
        rw [hg] at h
        dsimp only at h
        cases h
        refine ⟨rfl, fun hwf => ⟨rfl, fun p hp => ?_⟩⟩
        rcases List.mem_cons.mp hp with hp | hp
        · rw [hp]
        · exact hwf p hp
    | some j =>
        rw [hg] at h
        dsimp only at h
        by_cases hn : j.number ≠ number
        · rw [if_pos hn] at h; cases h
        · rw [if_neg hn] at h
          cases h
          exact ⟨not_not.mp hn, fun hwf =>
            ⟨hwf (name, i) (intGet_mem name i st hg), hwf⟩⟩

theorem extract_interrupts_length (nodes : List JVal) :
    ∀ (st : Header.IntState) (l : List Header.Interrupt)
      (st' : Header.IntState),
      Header.extract_interrupts st nodes = .ok (l, st') →
      l.length = nodes.length := by
  induction nodes with
  | nil =>
      intro st l st' h
      simp [Header.extract_interrupts] at h
      simp [← h.1]
  | cons n ns ih =>
      intro st l st' h
      rw [Header.extract_interrupts] at h
      simp only [bind, Except.bind] at h
      cases hnum : Header.numberAtReceiverOf n with
      | error e => rw [hnum] at h; cases h
      | ok num =>
          rw [hnum] at h
          dsimp only at h
          cases hraw : Header.nameFieldOf n with
          | error e => rw [hraw] at h; cases h
          | ok raw =>
              rw [hraw] at h
              dsimp only at h
              cases hmk : Header.make_interrupt st num
                  (if pyContainsChar raw '@' then "" else raw) with
              | error e => rw [hmk] at h; cases h
              | ok v =>
                  obtain ⟨i, st1⟩ := v
                  rw [hmk] at h
                  dsimp only at h
                  cases hext : Header.extract_interrupts st1 ns with
                  | error e => rw [hext] at h; cases h
                  | ok w =>
                      obtain ⟨is, st2⟩ := w
                      rw [hext] at h
                      cases h
                      simp [ih st1 is st2 hext]

theorem foldl_min_spec (xs : List Int) : ∀ x : Int,
    (xs.foldl min x ∈ x :: xs) ∧ ∀ y ∈ x :: xs, xs.foldl min x ≤ y := by
  induction xs with
  | nil =>
      intro x
      refine ⟨List.mem_singleton.mpr rfl, fun y hy => ?_⟩
      rw [List.mem_singleton.mp hy]
      exact le_refl _
  | cons z zs ih =>
      intro x
      obtain ⟨hm, hle⟩ := ih (min x z)
      have hfold : (z :: zs).foldl min x = zs.foldl min (min x z) := rfl
      constructor
      · rw [hfold]
        rcases List.mem_cons.mp hm with hm | hm
        · rw [hm]
          rcases min_choice x z with hc | hc
          · rw [hc]; exact List.mem_cons_self _ _
          · rw [hc]; exact List.mem_cons_of_mem _ (List.mem_cons_self _ _)
        · exact List.mem_cons_of_mem _ (List.mem_cons_of_mem _ hm)
      · intro y hy
        rw [hfold]
        have hmin : zs.foldl min (min x z) ≤ min x z :=
          hle _ (List.mem_cons_self _ _)
        rcases List.mem_cons.mp hy with hy | hy
        · rw [hy]; exact le_trans hmin (min_le_left x z)
        · rcases List.mem_cons.mp hy with hy | hy
          · rw [hy]; exact le_trans hmin (min_le_right x z)
          · exact hle y (List.mem_cons_of_mem _ hy)

theorem pyMin_spec (xs : List Int) (hne : xs ≠ []) :
    ∃ m, pyMin xs = .ok m ∧ m ∈ xs ∧ ∀ y ∈ xs, m ≤ y := by
  cases xs with
  | nil => exact absurd rfl hne
  | cons x t =>
      exact ⟨t.foldl min x, rfl, (foldl_min_spec t x).1, (foldl_min_spec t x).2⟩

theorem extract_interrupts_ok (nodes : List JVal) :
    ∀ (st : Header.IntState) (l : List Header.Interrupt)
      (st' : Header.IntState),
      Header.extract_interrupts st nodes = .ok (l, st') →
      (∀ p ∈ st, (p.2 : Header.Interrupt).name = p.1) →
      List.Forall₂ (fun n i =>
        ∃ num raw, Header.numberAtReceiverOf n = .ok num ∧
          Header.nameFieldOf n = .ok raw ∧
          (i : Header.Interrupt).number = num ∧
          i.name = (if pyContainsChar raw '@' then "" else raw)) nodes l ∧
      (∀ p ∈ st', (p.2 : Header.Interrupt).name = p.1) := by
  induction nodes with
  | nil =>
      intro st l st' h hwf
      simp [Header.extract_interrupts] at h
      obtain ⟨h1, h2⟩ := h
      subst h1; subst h2
      exact ⟨List.Forall₂.nil, hwf⟩
  | cons n ns ih =>
      intro st l st' h hwf
      rw [Header.extract_interrupts] at h
      simp only [bind, Except.bind] at h
      cases hnum : Header.numberAtReceiverOf n with
      | error e => rw [hnum] at h; cases h
      | ok num =>
          rw [hnum] at h
          dsimp only at h
          cases hraw : Header.nameFieldOf n with
          | error e => rw [hraw] at h; cases h
          | ok raw =>
              rw [hraw] at h
              dsimp only at h
              cases hmk : Header.make_interrupt st num
                  (if pyContainsChar raw '@' then "" else raw) with
              | error e => rw [hmk] at h; cases h
              | ok v =>
                  obtain ⟨i, st1⟩ := v
                  rw [hmk] at h
                  dsimp only at h
                  cases hext : Header.extract_interrupts st1 ns with
                  | error e => rw [hext] at h; cases h
                  | ok w =>
                      obtain ⟨is, st2⟩ := w
                      rw [hext] at h
                      cases h
                      have hm := make_interrupt_ok st num _ i st1 hmk
                      obtain ⟨hforall, hwf2⟩ :=
                        ih st1 is st2 hext (hm.2 hwf).2
                      exact ⟨List.Forall₂.cons
                        ⟨num, raw, hnum, hraw, hm.1, (hm.2 hwf).1⟩ hforall,
                        hwf2⟩

theorem processDevices_ok (devs : List (Nat × JVal)) :
    ∀ (rst : Header.RegState) (ist : Header.IntState) (device : String)
      (ds : List Header.DeviceBase) (rst' : Header.RegState)
      (ist' : Header.IntState),
      Header.processDevices rst ist device devs = .ok (ds, rst', ist') →
      (∀ db ∈ ds, pyMin (db.interrupts.map (·.number)) = .ok db.base_interrupt) ∧
      (∀ q ∈ devs, Header.interrupt_nodes q.2 device ≠ []) := by
  induction devs with
  | nil =>
      intro rst ist device ds rst' ist' h
      simp [Header.processDevices] at h
      obtain ⟨h1, h2, h3⟩ := h
      subst h1
      exact ⟨by simp, by simp⟩
  | cons q rest ih =>
      obtain ⟨index, dev_om⟩ := q
      intro rst ist device ds rst' ist' h
      rw [Header.processDevices] at h
      simp only [bind, Except.bind] at h
      cases hfr : Header.find_registers rst dev_om with
      | error e => rw [hfr] at h; cases h
      | ok v =>
          obtain ⟨reglist, rst1⟩ := v
          rw [hfr] at h
          dsimp only at h
          cases hfi : Header.find_interrupts ist dev_om device with
          | error e => rw [hfi] at h; cases h
          | ok w =>
              obtain ⟨intlist, ist1⟩ := w
              rw [hfi] at h
              dsimp only at h
              cases hpm : pyMin (intlist.map (·.number)) with
              | error e => rw [hpm] at h; cases h
              | ok base_int =>
                  rw [hpm] at h
                  dsimp only at h
                  cases hba : Header.baseAddressOf dev_om with
                  | error e => rw [hba] at h; cases h
                  | ok base_address =>
                      rw [hba] at h
                      dsimp only at h
                      cases hrec : Header.processDevices rst1 ist1 device rest with
                      | error e => rw [hrec] at h; cases h
                      | ok u =>
                          obtain ⟨ds', rst2, ist2⟩ := u
                          rw [hrec] at h
                          cases h
                          obtain ⟨ih1, ih2⟩ :=
                            ih rst1 ist1 device ds' rst2 ist2 hrec
                          constructor
                          · intro db hdb
                            rcases List.mem_cons.mp hdb with hdb | hdb
                            · rw [hdb]; exact hpm
                            · exact ih1 db hdb
                          · intro p hp
                            rcases List.mem_cons.mp hp with hp | hp
                            · rw [hp]
                              intro hnodes
                              have hlen := extract_interrupts_length
                                (Header.interrupt_nodes dev_om device)
                                ist intlist ist1 hfi
                              rw [hnodes] at hlen
                              simp at hlen
                              rw [hlen] at hpm
                              cases hpm
                            · exact ih2 p hp

theorem processRegions_ok_addr (mrs : List JVal) :
    ∀ (st : Header.RegState) (out : List Header.Register × Header.RegState),
      Header.processRegions st mrs = .ok out →
      ∀ mr ∈ mrs, ∃ av asets, Header.jGet mr "addressSets" = .ok av ∧
        Header.asArr av = .ok asets ∧ asets.length = 1 := by
  induction mrs with
  | nil => intro st out h mr hmr; cases hmr
  | cons mr0 rest ih =>
      intro st out h mr hmr
      rw [Header.processRegions] at h
      simp only [bind, Except.bind] at h
      cases hga : Header.jGet mr0 "addressSets" with
      | error e => rw [hga] at h; cases h
      | ok av =>
          rw [hga] at h
          dsimp only at h
          cases has : Header.asArr av with
          | error e => rw [has] at h; cases h
          | ok asets =>
              rw [has] at h
              dsimp only at h
              by_cases hlen : asets.length ≠ 1
              · rw [if_pos hlen] at h; cases h
              · rw [if_neg hlen] at h
                rcases List.mem_cons.mp hmr with hmr | hmr
                · exact hmr ▸ ⟨av, asets, hga, has, not_not.mp hlen⟩
                · cases hrm : Header.jGet mr0 "registerMap" with
                  | error e => rw [hrm] at h; cases h
                  | ok rm =>
                      rw [hrm] at h
                      dsimp only at h
                      cases hrf : Header.jGet rm "registerFields" with
                      | error e => rw [hrf] at h; cases h
                      | ok rfv =>
                          rw [hrf] at h
                          dsimp only at h
                          cases hfa : Header.asArr rfv with
                          | error e => rw [hfa] at h; cases h
                          | ok fields =>
                              rw [hfa] at h
                              dsimp only at h
                              cases hpf : Header.processFields st fields with
                              | error e => rw [hpf] at h; cases h
                              | ok v =>
                                  obtain ⟨rs1, st1⟩ := v
                                  rw [hpf] at h
                                  dsimp only at h
                                  cases hpr : Header.processRegions st1 rest with
                                  | error e => rw [hpr] at h; cases h
                                  | ok w =>
                                      exact ih st1 w hpr mr hmr

theorem processRegions_append_bad (pre : List JVal) :
    ∀ (st : Header.RegState) (rs0 : List Header.Register)
      (st0 : Header.RegState) (mr av : JVal) (asets rest : List JVal),
      Header.processRegions st pre = .ok (rs0, st0) →
      Header.jGet mr "addressSets" = .ok av →
      Header.asArr av = .ok asets → asets.length ≠ 1 →
      Header.processRegions st (pre ++ mr :: rest) =
        .error .unsupportedAddressConfiguration := by
  induction pre with
  | nil =>
      intro st rs0 st0 mr av asets rest _ hga has hlen
      rw [List.nil_append, Header.processRegions]
      simp only [bind, Except.bind, hga, has]
      rw [if_pos hlen]
  | cons p pre' ih =>
      intro st rs0 st0 mr av asets rest h hga has hlen
      rw [Header.processRegions] at h
      simp only [bind, Except.bind] at h
      rw [List.cons_append, Header.processRegions]
      simp only [bind, Except.bind]
      cases hga0 : Header.jGet p "addressSets" with
      | error e => rw [hga0] at h; cases h
      | ok av0 =>
          rw [hga0] at h
          dsimp only at h ⊢
          cases has0 : Header.asArr av0 with
          | error e => rw [has0] at h; cases h
          | ok asets0 =>
              rw [has0] at h
              dsimp only at h ⊢
              by_cases hl0 : asets0.length ≠ 1
              · rw [if_pos hl0] at h; cases h
              · rw [if_neg hl0] at h
                rw [if_neg hl0]
                cases hrm : Header.jGet p "registerMap" with
                | error e => rw [hrm] at h; cases h
                | ok rm =>
                    rw [hrm] at h
                    dsimp only at h ⊢
                    cases hrf : Header.jGet rm "registerFields" with
                    | error e => rw [hrf] at h; cases h
                    | ok rfv =>
                        rw [hrf] at h
                        dsimp only at h ⊢
                        cases hfa : Header.asArr rfv with
                        | error e => rw [hfa] at h; cases h
                        | ok fields =>
                            rw [hfa] at h
                            dsimp only at h ⊢
                            cases hpf : Header.processFields st fields with
                            | error e => rw [hpf] at h; cases h
                            | ok v =>
                                obtain ⟨rs1, st1⟩ := v
                                rw [hpf] at h
                                dsimp only at h ⊢
                                cases hpr : Header.processRegions st1 pre' with
                                | error e => rw [hpr] at h; cases h
                                | ok w =>
                                    obtain ⟨rs2, st2⟩ := w
                                    rw [ih st1 rs2 st2 mr av asets rest hpr
                                      hga has hlen]

theorem runGeneration_region_error (om : JVal) (vendor device : String)
    (i : Nat) (dev : JVal) (ds : List (Nat × JVal)) (mv : JVal)
    (mrs : List JVal)
    (hfd : Header.find_devices om device = (i, dev) :: ds)
    (hmv : Header.jGet dev "memoryRegions" = .ok mv)
    (hmrs : Header.asArr mv = .ok mrs)
    (hpr : Header.processRegions [] mrs =
      .error .unsupportedAddressConfiguration) :
    Header.runGeneration om vendor device =
      .error .unsupportedAddressConfiguration := by
  have hfr : Header.find_registers [] dev =
      .error .unsupportedAddressConfiguration := by
    rw [Header.find_registers]
    simp only [bind, Except.bind, hmv, hmrs]
    exact hpr
  rw [Header.runGeneration, hfd, Header.processDevices]
  simp only [bind, Except.bind, hfr]

/-- C7: register collection succeeds only when every memory region has
exactly one address set; once the regions before it collect successfully, a
region with any other number of address sets fails with the
unsupported-address error; and end-to-end, a first matched device whose
regions fail that check aborts the whole generation with that error, so no
header text is produced. -/
theorem c7_address_set_limit :
    (∀ (st : Header.RegState) (mrs : List JVal)
      (out : List Header.Register × Header.RegState),
      Header.processRegions st mrs = .ok out →
      ∀ mr ∈ mrs, ∃ av asets, Header.jGet mr "addressSets" = .ok av ∧
        Header.asArr av = .ok asets ∧ asets.length = 1) ∧
    (∀ (pre : List JVal) (st : Header.RegState)
      (rs0 : List Header.Register) (st0 : Header.RegState) (mr av : JVal)
      (asets rest : List JVal),
      Header.processRegions st pre = .ok (rs0, st0) →
      Header.jGet mr "addressSets" = .ok av →
      Header.asArr av = .ok asets → asets.length ≠ 1 →
      Header.processRegions st (pre ++ mr :: rest) =
        .error .unsupportedAddressConfiguration) ∧
    (∀ (om : JVal) (vendor device : String) (i : Nat) (dev : JVal)
      (ds : List (Nat × JVal)) (mv : JVal) (mrs : List JVal),
      Header.find_devices om device = (i, dev) :: ds →
      Header.jGet dev "memoryRegions" = .ok mv →
      Header.asArr mv = .ok mrs →
      Header.processRegions [] mrs =
        .error .unsupportedAddressConfiguration →
      Header.runGeneration om vendor device =
        .error .unsupportedAddressConfiguration) :=
  ⟨fun st mrs out h => processRegions_ok_addr mrs st out h,
   fun pre st rs0 st0 mr av asets rest h1 h2 h3 h4 =>
     processRegions_append_bad pre st rs0 st0 mr av asets rest h1 h2 h3 h4,
   fun om vendor device i dev ds mv mrs h1 h2 h3 h4 =>
     runGeneration_region_error om vendor device i dev ds mv mrs h1 h2 h3 h4⟩

/-- C7 witness: a device whose memory region declares two address sets makes
the whole generation abort with the unsupported-address error. -/
theorem c7_address_set_limit_witness :
    Header.runGeneration Header.c7Dev "v" "Bar" =
      .error .unsupportedAddressConfiguration :=
  c7_address_set_limit.2.2 Header.c7Dev "v" "Bar" 0 Header.c7Dev []
    (.arr (.cons Header.c7Region .nil)) [Header.c7Region]
    rfl rfl rfl rfl

/-- C9: for a well-formed interrupt cache, extraction pairs every interrupt
node — including those whose raw name contains `'@'`, whose name is emptied —
with an extracted interrupt carrying the node's `numberAtReceiver`; a
non-empty extracted list has a well-defined `pyMin` that is the least of those
numbers; and every resolved device instance's `base_interrupt` is exactly
`pyMin` of its interrupt numbers. -/
theorem c9_base_interrupt :
    (∀ (nodes : List JVal) (st : Header.IntState)
      (l : List Header.Interrupt) (st' : Header.IntState),
      Header.extract_interrupts st nodes = .ok (l, st') →
      (∀ p ∈ st, (p.2 : Header.Interrupt).name = p.1) →
      List.Forall₂ (fun n i =>
        ∃ num raw, Header.numberAtReceiverOf n = .ok num ∧
          Header.nameFieldOf n = .ok raw ∧
          (i : Header.Interrupt).number = num ∧
          i.name = (if pyContainsChar raw '@' then "" else raw)) nodes l) ∧
    (∀ l : List Header.Interrupt, l ≠ [] →
      ∃ m, pyMin (l.map (·.number)) = .ok m ∧ m ∈ l.map (·.number) ∧
        ∀ y ∈ l.map (·.number), m ≤ y) ∧
    (∀ (devs : List (Nat × JVal)) (rst : Header.RegState)
      (ist : Header.IntState) (device : String)
      (ds : List Header.DeviceBase) (rst' : Header.RegState)
      (ist' : Header.IntState),
      Header.processDevices rst ist device devs = .ok (ds, rst', ist') →
      ∀ db ∈ ds,
        pyMin (db.interrupts.map (·.number)) = .ok db.base_interrupt) :=
  ⟨fun nodes st l st' h hwf => (extract_interrupts_ok nodes st l st' h hwf).1,
   fun l hl => pyMin_spec (l.map (·.number)) (by simpa using hl),
   fun devs rst ist device ds rst' ist' h =>
     (processDevices_ok devs rst ist device ds rst' ist' h).1⟩

/-- C9 witness: a two-interrupt device — one of them anonymous — has
`pyMin` equal to the least number. -/
theorem c9_base_interrupt_witness :
    ∃ m, pyMin (([⟨5, "a"⟩, ⟨3, ""⟩] : List Header.Interrupt).map (·.number)) =
        .ok m ∧
      m ∈ ([⟨5, "a"⟩, ⟨3, ""⟩] : List Header.Interrupt).map (·.number) ∧
      ∀ y ∈ ([⟨5, "a"⟩, ⟨3, ""⟩] : List Header.Interrupt).map (·.number),
        m ≤ y :=
  c9_base_interrupt.2.1 [⟨5, "a"⟩, ⟨3, ""⟩] (by decide)

/-- C10: a matched device instance with no interrupt nodes in its subtree
makes the generation run fail (the base interrupt is the minimum of an empty
sequence), so no header text is produced: the pipeline presupposes at least
one interrupt per device instance. -/
theorem c10_empty_interrupts_abort (om : JVal) (vendor device s : String)
    (p : Nat × JVal) (hp : p ∈ Header.find_devices om device)
    (hn : Header.interrupt_nodes p.2 device = []) :
    Header.runGeneration om vendor device ≠ .ok s := by
  intro h
  rw [Header.runGeneration] at h
  simp only [bind, Except.bind] at h
  cases hpd : Header.processDevices [] [] device
      (Header.find_devices om device) with
  | error e => rw [hpd] at h; cases h
  | ok v =>
      obtain ⟨ds, rst', ist'⟩ := v
      exact (processDevices_ok (Header.find_devices om device) [] [] device
        ds rst' ist' hpd).2 p hp hn

/-- C10 witness: the generation run on a device with no interrupts is not a
success. -/
theorem c10_empty_interrupts_abort_witness :
    Header.runGeneration Header.c10Dev "v" "Foo" ≠ .ok "" :=
  c10_empty_interrupts_abort Header.c10Dev "v" "Foo" ""
    (0, Header.c10Dev) (by decide) (by decide)

/-- C2 counterexample: the claim quantifies over every raw register
descriptor, but the header script's extractor (`Register.make_register`)
performs no width validation: a descriptor with width 7 extracts
successfully there. -/
theorem c2_header_no_width_check :
    Header.make_register [] "R" 0 7 "G" =
      .ok (⟨"R", 0, 7, "G"⟩, [("R-G", ⟨"R", 0, 7, "G"⟩)]) := rfl
